import Mathlib

/-!
# Markboard: verification of the file/team subsystem

A shallow embedding of the access-control, file-lifecycle, team-membership and
content-storage logic of the Markboard backend (`app/security.py`,
`app/permissions.py`, `app/file_storage.py`, `app/services/file_service.py`,
`app/services/team_service.py`, `app/files.py`, `app/db.py`), together with
theorems settling the specification claims about it.

Conventions of the embedding:
* SQL tables become lists of records; `execute_one` on a keyed lookup becomes
  `List.find?`, `DELETE`/`UPDATE ... WHERE` become `List.filter`/`List.map`.
  SQL `NULL` becomes `Option.none`; the SQL comparison `col = value` never
  matches a `NULL` column, which the embedding mirrors by matching on `some`.
* Python truthiness of an optional integer (`if team_id:`) is `false` for both
  `None` and `0`, modelled by `truthy`.
* The filesystem is an association list from paths to byte lists; bytes are
  `Nat` (< 256) and machine words are `Nat` reduced mod `2^32`.
* Machine-level failures that the code provokes deterministically (an
  attribute lookup on a value of the wrong type) are modelled by an
  `Option`-valued accessor that is constantly `none`, with the `except`
  handler's behaviour inlined at the `none` branch.
-/

set_option maxRecDepth 100000

/-- Python `re` class `\s` on the ASCII range: space, tab, newline, vertical
tab, form feed, carriage return and the four separator control characters
`\x1c`-`\x1f`.  Non-ASCII whitespace (which Python also matches) is classified
by `pyWord` below; no theorem in this development depends on non-ASCII
classification. -/
def pySpace (c : Char) : Bool :=
  c == ' ' || c == '\t' || c == '\n' || c == '\x0b' || c == '\x0c' || c == '\r' ||
  c == '\x1c' || c == '\x1d' || c == '\x1e' || c == '\x1f'

/-- Python `re` class `\w` (Unicode mode): exact on ASCII (alphanumerics and
underscore).  Non-ASCII characters are word characters or not according to the
Unicode tables; the embedding approximates them all as word characters.  Every
concrete input used in a theorem below is ASCII, where this definition is
exact. -/
def pyWord (c : Char) : Bool :=
  c.isAlphanum || c == '_' || 0x80 ≤ c.toNat

/-- A character survives `re.sub(r"[^\w\s.-]", "", filename)`. -/
def pyKeep (c : Char) : Bool :=
  pyWord c || pySpace c || c == '.' || c == '-'

/-- `'.'` or `' '`, the characters removed by `str.strip(". ")`. -/
def isDotSpace (c : Char) : Bool := c == '.' || c == ' '

/-- Python `str.strip(chars)`: drop characters satisfying `p` from both ends. -/
def pyStripBy (p : Char → Bool) (l : List Char) : List Char :=
  ((l.dropWhile p).reverse.dropWhile p).reverse

/-- `sanitize_filename` from `app/security.py` (identical copy in
`app/utils.py`): remove characters outside `[\w\s.-]`, strip leading/trailing
dots and spaces, truncate to 255 characters, fall back to `"untitled"` when
the stripped result is empty. -/
def sanitize_filename (filename : String) : String :=
  let sanitized := filename.data.filter pyKeep
  let stripped := pyStripBy isDotSpace sanitized
  if stripped.isEmpty then "untitled" else String.mk (stripped.take 255)

/-- UTF-8 encoding of one Unicode code point (as produced by Python's
`str.encode("utf-8")` for each character). -/
def utf8EncodeChar (n : Nat) : List Nat :=
  if n < 0x80 then [n]
  else if n < 0x800 then [0xC0 + n / 64, 0x80 + n % 64]
  else if n < 0x10000 then
    [0xE0 + n / 4096, 0x80 + n / 64 % 64, 0x80 + n % 64]
  else
    [0xF0 + n / 262144, 0x80 + n / 4096 % 64, 0x80 + n / 64 % 64, 0x80 + n % 64]

/-- UTF-8 encoding of a list of code points. -/
def utf8Encode (cs : List Nat) : List Nat :=
  (cs.map utf8EncodeChar).flatten

/-- UTF-8 decoding, fuelled (one unit of fuel per decoded character; a byte
list of length `n` holds at most `n` characters).  Returns `none` on a
malformed prefix, like Python's `bytes.decode("utf-8")` raising. -/
def utf8DecodeAux : Nat → List Nat → Option (List Nat)
  | _, [] => some []
  | 0, _ :: _ => none
  | fuel+1, b0 :: bs =>
    if b0 < 0x80 then
      (utf8DecodeAux fuel bs).map (b0 :: ·)
    else if b0 < 0xC0 then none
    else if b0 < 0xE0 then
      match bs with
      | b1 :: bs2 =>
        if b1 / 64 == 2 then
          (utf8DecodeAux fuel bs2).map (((b0 - 0xC0) * 64 + (b1 - 0x80)) :: ·)
        else none
      | [] => none
    else if b0 < 0xF0 then
      match bs with
      | b1 :: b2 :: bs3 =>
        if b1 / 64 == 2 && b2 / 64 == 2 then
          (utf8DecodeAux fuel bs3).map
            (((b0 - 0xE0) * 4096 + (b1 - 0x80) * 64 + (b2 - 0x80)) :: ·)
        else none
      | _ => none
    else if b0 < 0xF8 then
      match bs with
      | b1 :: b2 :: b3 :: bs4 =>
        if b1 / 64 == 2 && b2 / 64 == 2 && b3 / 64 == 2 then
          (utf8DecodeAux fuel bs4).map
            (((b0 - 0xF0) * 262144 + (b1 - 0x80) * 4096 +
              (b2 - 0x80) * 64 + (b3 - 0x80)) :: ·)
        else none
      | _ => none
    else none

/-- UTF-8 decoding of a byte list. -/
def utf8Decode (bs : List Nat) : Option (List Nat) :=
  utf8DecodeAux bs.length bs

/-- Code points of a string. -/
def strCodes (s : String) : List Nat := s.data.map Char.toNat

/-- The bytes Python writes for `f.write(content)` with `encoding="utf-8"`. -/
def strUtf8 (s : String) : List Nat := utf8Encode (strCodes s)

/-- Rebuild a string from decoded code points. -/
def codesToString (cs : List Nat) : String := String.mk (cs.map Char.ofNat)

/-- Python universal-newlines translation (`newline=None`, the default, on a
text-mode read): every `"\r\n"` pair and every lone `"\r"` becomes `"\n"`. -/
def pyUniversalNewlines : List Char → List Char
  | [] => []
  | '\r' :: '\n' :: rest => '\n' :: pyUniversalNewlines rest
  | '\r' :: rest => '\n' :: pyUniversalNewlines rest
  | c :: rest => c :: pyUniversalNewlines rest

/-- The string produced by Python's text-mode read from decoded code points:
universal-newlines translation applied to the decoded characters. -/
def textModeRead (cs : List Nat) : String :=
  String.mk (pyUniversalNewlines (cs.map Char.ofNat))

/-- Truncate to a 32-bit word. -/
def w32 (n : Nat) : Nat := n % 4294967296

/-- 32-bit right rotation. -/
def rotr32 (k n : Nat) : Nat := w32 ((n >>> k) ||| (n <<< (32 - k)))

/-- 32-bit bitwise complement. -/
def bnot32 (n : Nat) : Nat := n ^^^ 4294967295

/-- The SHA-256 round constants. -/
def sha256K : List Nat :=
  [1116352408, 1899447441, 3049323471, 3921009573,
   961987163, 1508970993, 2453635748, 2870763221,
   3624381080, 310598401, 607225278, 1426881987,
   1925078388, 2162078206, 2614888103, 3248222580,
   3835390401, 4022224774, 264347078, 604807628,
   770255983, 1249150122, 1555081692, 1996064986,
   2554220882, 2821834349, 2952996808, 3210313671,
   3336571891, 3584528711, 113926993, 338241895,
   666307205, 773529912, 1294757372, 1396182291,
   1695183700, 1986661051, 2177026350, 2456956037,
   2730485921, 2820302411, 3259730800, 3345764771,
   3516065817, 3600352804, 4094571909, 275423344,
   430227734, 506948616, 659060556, 883997877,
   958139571, 1322822218, 1537002063, 1747873779,
   1955562222, 2024104815, 2227730452, 2361852424,
   2428436474, 2756734187, 3204031479, 3329325298]

/-- The SHA-256 initial hash value. -/
def sha256H0 : List Nat :=
  [1779033703, 3144134277,
   1013904242, 2773480762,
   1359893119, 2600822924,
   528734635, 1541459225]

def bigSigma0 (x : Nat) : Nat := rotr32 2 x ^^^ rotr32 13 x ^^^ rotr32 22 x

def bigSigma1 (x : Nat) : Nat := rotr32 6 x ^^^ rotr32 11 x ^^^ rotr32 25 x

def smallSigma0 (x : Nat) : Nat := rotr32 7 x ^^^ rotr32 18 x ^^^ (x >>> 3)

def smallSigma1 (x : Nat) : Nat := rotr32 17 x ^^^ rotr32 19 x ^^^ (x >>> 10)

def chF (x y z : Nat) : Nat := (x &&& y) ^^^ (bnot32 x &&& z)

def majF (x y z : Nat) : Nat := (x &&& y) ^^^ (x &&& z) ^^^ (y &&& z)

/-- Merkle-Damgård padding: `0x80`, zero bytes to 56 mod 64, then the bit
length as an 8-byte big-endian integer. -/
def sha256Pad (msg : List Nat) : List Nat :=
  let L := msg.length
  let k := (119 - L % 64) % 64
  let bitLen := 8 * L
  msg ++ [0x80] ++ List.replicate k 0 ++
    [bitLen / 72057594037927936 % 256, bitLen / 281474976710656 % 256,
     bitLen / 1099511627776 % 256, bitLen / 4294967296 % 256,
     bitLen / 16777216 % 256, bitLen / 65536 % 256,
     bitLen / 256 % 256, bitLen % 256]

/-- The 16 big-endian 32-bit words of one 64-byte block. -/
def blockWords (block : List Nat) : List Nat :=
  (List.range 16).map (fun i =>
    block.getD (4*i) 0 * 16777216 + block.getD (4*i+1) 0 * 65536 +
    block.getD (4*i+2) 0 * 256 + block.getD (4*i+3) 0)

/-- Extend the 16 block words to the 64-entry message schedule. -/
def sha256Schedule (block : List Nat) : Array Nat :=
  (List.range 48).foldl (fun w i =>
    let t := i + 16
    w.push (w32 (smallSigma1 (w.getD (t-2) 0) + w.getD (t-7) 0 +
                 smallSigma0 (w.getD (t-15) 0) + w.getD (t-16) 0)))
    (blockWords block).toArray

/-- One round of the SHA-256 compression loop on the eight working
variables. -/
def sha256Round (w : Array Nat) (st : List Nat) (i : Nat) : List Nat :=
  match st with
  | [a, b, c, d, e, f, g, h] =>
    let t1 := w32 (h + bigSigma1 e + chF e f g + sha256K.getD i 0 + w.getD i 0)
    let t2 := w32 (bigSigma0 a + majF a b c)
    [w32 (t1 + t2), a, b, c, w32 (d + t1), e, f, g]
  | other => other

/-- Process one 64-byte block. -/
def compressBlock (hs : List Nat) (block : List Nat) : List Nat :=
  let st := (List.range 64).foldl (sha256Round (sha256Schedule block)) hs
  List.zipWith (fun x y => w32 (x + y)) hs st

def chunksOf64Aux : Nat → List Nat → List (List Nat)
  | _, [] => []
  | 0, l => [l]
  | fuel+1, l => l.take 64 :: chunksOf64Aux fuel (l.drop 64)

/-- Split a byte list into 64-byte blocks. -/
def chunksOf64 (l : List Nat) : List (List Nat) := chunksOf64Aux l.length l

/-- The eight 32-bit words of the SHA-256 digest of a byte list. -/
def sha256Words (msg : List Nat) : List Nat :=
  (chunksOf64 (sha256Pad msg)).foldl compressBlock sha256H0

def hexDigitChar (n : Nat) : Char :=
  if n < 10 then Char.ofNat (48 + n) else Char.ofNat (87 + n)

def hex8 (w : Nat) : List Char :=
  (List.range 8).map (fun i => hexDigitChar (w / 16 ^ (7 - i) % 16))

/-- `hashlib.sha256(data).hexdigest()`: the lowercase hex digest. -/
def sha256Hex (msg : List Nat) : String :=
  String.mk ((sha256Words msg).map hex8).flatten

/- Sanity check mirroring the spec's scenario: the checksum of "hello". -/

/-- The storage filesystem: newest write first. -/
abbrev FStore := List (String × List Nat)

def fsWrite (fs : FStore) (p : String) (b : List Nat) : FStore := (p, b) :: fs

def fsLookup (fs : FStore) (p : String) : Option (List Nat) :=
  (fs.find? (fun e => e.1 == p)).map (·.2)

def fsExists (fs : FStore) (p : String) : Bool := (fsLookup fs p).isSome

def fsErase (fs : FStore) (p : String) : FStore := fs.filter (fun e => ¬ e.1 == p)

namespace FileStorage

/-- `FILE_STORAGE_DIR` defaulting to `"data/files"` in `FileStorage.__init__`. -/
def files_dir : String := "data/files"

/-- Python `str.zfill(3)`. -/
def zfill3 (s : String) : String := String.mk (List.replicate (3 - s.length) '0' ++ s.data)

/-- `FileStorage.generate_file_path`: `files_dir / (file_id // 1000).zfill(3) /
"(file_id)_(sanitized name)"`. -/
def generate_file_path (fileId : Nat) (filename : String) : String :=
  files_dir ++ "/" ++ zfill3 (toString (fileId / 1000)) ++ "/" ++
    toString fileId ++ "_" ++ sanitize_filename filename

/-- `FileStorage.save_file`: write the UTF-8 bytes of `content`, return
`(file_size, checksum)` where the size is the byte count on disk and the
checksum is the SHA-256 hex digest of those bytes. -/
def save_file (fs : FStore) (path : String) (content : String) :
    (Nat × String) × FStore :=
  let bytes := strUtf8 content
  ((bytes.length, sha256Hex bytes), fsWrite fs path bytes)

/-- `FileStorage.read_file`: `none` when the path does not exist
(`FileNotFoundError`) or the stored bytes do not decode.  The source opens the
file with `open(file_path, "r", encoding="utf-8")` — text mode with the
default `newline=None` — so the read applies universal-newlines translation:
`"\r\n"` and lone `"\r"` come back as `"\n"`.  (`save_file` opens with `"w"`,
whose write-side translation maps `"\n"` to `os.linesep`; on the repository's
Linux/Docker deployment `os.linesep = "\n"`, the identity, so the stored
bytes are the plain UTF-8 encoding.) -/
def read_file (fs : FStore) (path : String) : Option String :=
  (fsLookup fs path).bind (fun b => (utf8Decode b).map textModeRead)

/-- `FileStorage.delete_file`: `os.remove` when present; returns whether a
file was removed. -/
def delete_file (fs : FStore) (path : String) : Bool × FStore :=
  if fsExists fs path then (true, fsErase fs path) else (false, fs)

/-- `FileStorage.file_exists`. -/
def file_exists (fs : FStore) (path : String) : Bool := fsExists fs path

/-- `FileStorage.verify_file_integrity`: recompute the digest and compare;
`false` when the path does not exist. -/
def verify_file_integrity (fs : FStore) (path expected : String) : Bool :=
  match fsLookup fs path with
  | none => false
  | some b => sha256Hex b == expected

end FileStorage

structure FileRow where
  id : Nat
  name : String
  filePath : String
  fileSize : Nat
  checksum : String
  mimeType : String
  ownerId : Nat
  teamId : Option Nat
  createdAt : Nat
  updatedAt : Nat
  deletedAt : Option Nat
deriving Repr, DecidableEq

structure TeamRow where
  id : Nat
  name : String
  description : String
  ownerId : Nat
  createdAt : Nat
deriving Repr, DecidableEq

structure MemberRow where
  id : Nat
  teamId : Nat
  userId : Nat
  role : String
  joinedAt : Nat
deriving Repr, DecidableEq

structure UserRow where
  id : Nat
  email : String
deriving Repr, DecidableEq

structure VersionRow where
  id : Nat
  fileId : Nat
  versionPath : String
  fileSize : Nat
  checksum : String
  createdAt : Nat
deriving Repr, DecidableEq

structure ActivityRow where
  userId : Nat
  action : String
  resourceType : String
  resourceId : Option Nat
  details : String
deriving Repr, DecidableEq

structure St where
  files : List FileRow
  teams : List TeamRow
  members : List MemberRow
  users : List UserRow
  versions : List VersionRow
  activities : List ActivityRow
  fs : FStore
  nextFileId : Nat
  nextTeamId : Nat
  nextMemberId : Nat
  nextVersionId : Nat
  now : Nat
deriving Repr, DecidableEq

/-- Python truthiness of an optional integer (`if team_id:`): `None` and `0`
are falsy. -/
def truthy : Option Nat → Bool
  | none => false
  | some n => n != 0

/-- Python `str.strip()` (no argument): strip whitespace from both ends. -/
def pyStrip (s : String) : String := String.mk (pyStripBy pySpace s.data)

/-- `log_activity` (`app/activity.py`): append-only insert into
`activity_logs`; in the code any insert failure is swallowed, so the model
lets it always succeed. -/
def log_activity (s : St) (userId : Nat) (action resourceType : String)
    (resourceId : Option Nat) (details : String) : St :=
  { s with activities := s.activities ++ [⟨userId, action, resourceType, resourceId, details⟩] }

/-- `check_file_access` (`app/permissions.py`, identical copy in
`app/utils.py`): one query joining `files` against `team_members`; true iff a
row with the file id exists whose owner is the user or whose (non-`NULL`)
team has a membership row for the user.  SQL `NULL = x` never matches, hence
the `match` on `teamId`. -/
def check_file_access (s : St) (userId fileId : Nat) : Bool :=
  s.files.any (fun f => f.id == fileId &&
    (f.ownerId == userId ||
      (match f.teamId with
       | some t => s.members.any (fun m => m.teamId == t && m.userId == userId)
       | none => false)))

/-- `mimetypes.guess_type` (Python stdlib, an external collaborator),
modelled on the extensions that matter to this repository. -/
def guessMimeType (name : String) : Option String :=
  if ".md".data.isSuffixOf name.data then some "text/markdown"
  else if ".txt".data.isSuffixOf name.data then some "text/plain"
  else if ".html".data.isSuffixOf name.data then some "text/html"
  else none

namespace FileService

/-- `FileService.create_file`.  The `INSERT ... RETURNING id` /
`UPDATE files SET file_path = ...` two-phase write appends a placeholder row,
saves the content, then patches the row.  The duplicate check runs over the
sanitized name and, like the SQL, does not exclude soft-deleted rows. -/
def create_file (s : St) (name content : String) (ownerId : Nat)
    (teamId : Option Nat) : (Bool × String × Option FileRow) × St :=
  if pyStrip name == "" then ((false, "File name is required", none), s)
  else
  let clean_name := sanitize_filename (pyStrip name)
  if clean_name == "" then ((false, "Invalid file name", none), s)
  else
  if truthy teamId &&
      !(s.members.any (fun m => some m.teamId == teamId && m.userId == ownerId)) then
    ((false, "Access denied to team", none), s)
  else
  let dup :=
    if truthy teamId then
      s.files.any (fun f => f.name == clean_name && f.teamId == teamId)
    else
      s.files.any (fun f =>
        f.name == clean_name && f.ownerId == ownerId && f.teamId == none)
  if dup then ((false, "File with this name already exists", none), s)
  else
  let fileId := s.nextFileId
  let row0 : FileRow :=
    { id := fileId, name := clean_name, filePath := "", fileSize := 0,
      checksum := "", mimeType := "", ownerId := ownerId, teamId := teamId,
      createdAt := s.now, updatedAt := s.now, deletedAt := none }
  let s1 := { s with files := s.files ++ [row0], nextFileId := fileId + 1 }
  let file_path := FileStorage.generate_file_path fileId clean_name
  let saved := FileStorage.save_file s1.fs file_path content
  let mime_type := (guessMimeType clean_name).getD "text/plain"
  let s2 := { s1 with
    fs := saved.2,
    files := s1.files.map (fun f =>
      if f.id == fileId then
        { f with filePath := file_path, fileSize := saved.1.1,
                 checksum := saved.1.2, mimeType := mime_type }
      else f) }
  let file_record := s2.files.find? (fun f => f.id == fileId)
  let s3 := log_activity s2 ownerId "file_created" "file" (some fileId)
    ("Created file: " ++ clean_name ++ (if truthy teamId then " (Team file)" else ""))
  ((true, "File created successfully", file_record), s3)

/-- `FileService.get_file_details`: gate, fetch, read content, log. -/
def get_file_details (s : St) (fileId userId : Nat) :
    (Bool × String × Option (FileRow × String)) × St :=
  if !check_file_access s userId fileId then ((false, "Access denied", none), s)
  else
  match s.files.find? (fun f => f.id == fileId) with
  | none => ((false, "File not found", none), s)
  | some fr =>
    match FileStorage.read_file s.fs fr.filePath with
    | none => ((false, "File content not found", none), s)
    | some content =>
      let s1 := log_activity s userId "file_viewed" "file" (some fileId)
        ("Viewed file: " ++ fr.name)
      ((true, "Success", some (fr, content)), s1)

/-- `FileService.update_file`: gate, fetch, optional rename with duplicate
check, optional content overwrite, single `UPDATE` statement, activity log.
Note: the service has no version-snapshot step. -/
def update_file (s : St) (fileId userId : Nat) (name content : Option String) :
    (Bool × String × Option FileRow) × St :=
  if !check_file_access s userId fileId then ((false, "Access denied", none), s)
  else
  match s.files.find? (fun f => f.id == fileId) with
  | none => ((false, "File not found", none), s)
  | some file_record =>
    let nameError := match name with
      | none => false
      | some n => pyStrip n == ""
    if nameError then ((false, "Invalid file name", none), s)
    else
    let cleanName : Option String := name.map (fun n => sanitize_filename (pyStrip n))
    let dup := match cleanName with
      | none => false
      | some clean =>
        if truthy file_record.teamId then
          s.files.any (fun f =>
            f.name == clean && f.teamId == file_record.teamId && f.id != fileId)
        else
          s.files.any (fun f =>
            f.name == clean && f.ownerId == file_record.ownerId &&
            f.teamId == none && f.id != fileId)
    if dup then ((false, "File with this name already exists", none), s)
    else
    if cleanName == none && content == none then
      ((false, "No updates provided", none), s)
    else
    let wr : Option (Nat × String) × FStore := match content with
      | none => (none, s.fs)
      | some c =>
        let saved := FileStorage.save_file s.fs file_record.filePath c
        (some saved.1, saved.2)
    let s1 := { s with
      fs := wr.2,
      files := s.files.map (fun f =>
        if f.id == fileId then
          let f := match cleanName with
            | some clean => { f with name := clean }
            | none => f
          let f := match content with
            | some _ => { f with updatedAt := s.now }
            | none => f
          match wr.1 with
          | some sc => { f with fileSize := sc.1, checksum := sc.2 }
          | none => f
        else f) }
    let updated := s1.files.find? (fun f => f.id == fileId)
    let s2 := log_activity s1 userId "file_edited" "file" (some fileId)
      ("Updated file: " ++ file_record.name)
    ((true, "File updated successfully", updated), s2)

/-- `FileService.delete_file`: gate, fetch, hard `DELETE` of the row, then
delete the content bytes. -/
def delete_file (s : St) (fileId userId : Nat) : (Bool × String) × St :=
  if !check_file_access s userId fileId then ((false, "Access denied"), s)
  else
  match s.files.find? (fun f => f.id == fileId) with
  | none => ((false, "File not found"), s)
  | some fr =>
    let s1 := { s with files := s.files.filter (fun f => !(f.id == fileId)) }
    let del := FileStorage.delete_file s1.fs fr.filePath
    let s2 := { s1 with fs := del.2 }
    let s3 := log_activity s2 userId "file_deleted" "file" (some fileId)
      ("Deleted file: " ++ fr.name)
    ((true, "File deleted successfully"), s3)

/-- `FileService.get_file_content`: gate, fetch, read; no activity log. -/
def get_file_content (s : St) (fileId userId : Nat) :
    (Bool × String × Option String) × St :=
  if !check_file_access s userId fileId then ((false, "Access denied", none), s)
  else
  match s.files.find? (fun f => f.id == fileId) with
  | none => ((false, "File not found", none), s)
  | some fr =>
    match FileStorage.read_file s.fs fr.filePath with
    | none => ((false, "File content not found", none), s)
    | some content => ((true, "Success", some content), s)

end FileService

namespace TeamService

/-- In `db.py`, `Database.execute_modify` returns a plain `int` (the
`lastrowid` for an `INSERT`).  `TeamService.create_team` nevertheless binds
that `int` as `cursor` and reads `cursor.lastrowid`; an `int` has no such
attribute, so the access raises `AttributeError`.  The failed attribute
lookup is modelled as a constantly-`none` accessor. -/
def lastrowidAttrOfInt (n : Nat) : Option Nat := none

/-- `TeamService.create_team`: duplicate-name check, then (inside `try`) an
auto-committed `INSERT` of the team row, the `cursor.lastrowid` attribute
access, and — were it reached — the owner-membership `INSERT`.  The
`except` handler returns the failure tuple; nothing is rolled back because
the connection autocommits each statement. -/
def create_team (s : St) (name description : String) (ownerId : Nat) :
    (Bool × String × Option Nat) × St :=
  if (s.teams.find? (fun t => t.name == name)).isSome then
    ((false, "Team name already exists", none), s)
  else
    let teamId := s.nextTeamId
    let s1 := { s with
      teams := s.teams ++ [⟨teamId, name, description, ownerId, s.now⟩],
      nextTeamId := teamId + 1 }
    match lastrowidAttrOfInt teamId with
    | none => ((false, "Failed to create team", none), s1)
    | some tid =>
      let s2 := { s1 with
        members := s1.members ++ [⟨s1.nextMemberId, tid, ownerId, "admin", s1.now⟩],
        nextMemberId := s1.nextMemberId + 1 }
      let s3 := log_activity s2 ownerId "team_created" "team" (some tid)
        ("Created team: " ++ name)
      ((true, "Team created successfully", some tid), s3)

/-- `TeamService.disband_team`: owner gate, then reassign team files to
personal scope, delete memberships, delete the team row, log. -/
def disband_team (s : St) (teamId userId : Nat) : (Bool × String) × St :=
  match s.teams.find? (fun t => t.id == teamId) with
  | none => ((false, "Team not found"), s)
  | some team =>
    if team.ownerId != userId then
      ((false, "Only team owner can disband the team"), s)
    else
      let fileCount := (s.files.filter (fun f => f.teamId == some teamId)).length
      let s1 := if fileCount > 0 then
          { s with files := s.files.map (fun f =>
              if f.teamId == some teamId then { f with teamId := none } else f) }
        else s
      let s2 := { s1 with members := s1.members.filter (fun m => !(m.teamId == teamId)) }
      let s3 := { s2 with teams := s2.teams.filter (fun t => !(t.id == teamId)) }
      let s4 := log_activity s3 userId "team_deleted" "team" (some teamId)
        ("Disbanded team: " ++ team.name)
      ((true, "Team disbanded successfully. All team files have been transferred to your personal ownership."), s4)

/-- `TeamService.kick_user_from_team`: kicker-role gate, target-membership
check, team fetch, owner protection, then the membership `DELETE`.  The
email lookup after the `DELETE` feeds only the activity log; were the target
user row missing, the subscript on `None` would raise inside the `try` and
the handler would return the generic failure with the deletion already
committed. -/
def kick_user_from_team (s : St) (teamId targetUserId kickingUserId : Nat) :
    (Bool × String) × St :=
  match s.members.find? (fun m => m.teamId == teamId && m.userId == kickingUserId) with
  | none => ((false, "Insufficient permissions"), s)
  | some kicker =>
    if !(kicker.role == "admin" || kicker.role == "owner") then
      ((false, "Insufficient permissions"), s)
    else
      match s.members.find? (fun m => m.teamId == teamId && m.userId == targetUserId) with
      | none => ((false, "User is not a member of this team"), s)
      | some _ =>
        match s.teams.find? (fun t => t.id == teamId) with
        | none => ((false, "Team not found"), s)
        | some team =>
          if team.ownerId == targetUserId then
            ((false, "Cannot kick the team owner"), s)
          else
            let s1 := { s with members := s.members.filter (fun m =>
              !(m.teamId == teamId && m.userId == targetUserId)) }
            match s1.users.find? (fun u => u.id == targetUserId) with
            | none => ((false, "Failed to remove user from team"), s1)
            | some _ =>
              let s2 := log_activity s1 kickingUserId "team_member_kicked" "team"
                (some teamId) ("Kicked user from team: " ++ team.name)
              ((true, "User successfully removed from team"), s2)

end TeamService

namespace WebFiles

/-- The route result: HTTP status code and message. -/
def update_file (s : St) (fileId userId : Nat) (name content : Option String) :
    (Nat × String) × St :=
  if !check_file_access s userId fileId then
    ((404, "File not found or access denied"), s)
  else
  match s.files.find? (fun f => f.id == fileId) with
  | none => ((404, "File not found"), s)
  | some current_file =>
    let newName : Option String := name.map (fun n => sanitize_filename (pyStrip n))
    if newName == some "" then ((400, "Invalid file name"), s)
    else
    if newName == none && content == none then ((400, "No updates provided"), s)
    else
    let sv : St := match content with
      | none => s
      | some _ =>
        match s.files.find? (fun f => f.id == fileId) with
        | none => s
        | some full =>
          if full.filePath != "" then
            { s with
              versions := s.versions ++
                [⟨s.nextVersionId, fileId, "", full.fileSize, full.checksum, s.now⟩],
              nextVersionId := s.nextVersionId + 1 }
          else s
    let wr : Option (Nat × String) × FStore := match content with
      | none => (none, sv.fs)
      | some c =>
        if current_file.filePath != "" then
          let saved := FileStorage.save_file sv.fs current_file.filePath c
          (some saved.1, saved.2)
        else (none, sv.fs)
    let s2 := { sv with
      fs := wr.2,
      files := sv.files.map (fun f =>
        if f.id == fileId then
          let f := match newName with
            | some nn => { f with name := nn }
            | none => f
          let f := { f with updatedAt := s.now }
          match wr.1 with
          | some sc => { f with fileSize := sc.1, checksum := sc.2 }
          | none => f
        else f) }
    let s3 := log_activity s2 userId "update" "file" (some fileId)
      ("Updated file: " ++ current_file.name)
    ((200, "File updated successfully"), s3)

end WebFiles

/-- The character set `[A-Za-z0-9_.\- ]` from which the specification claims
every `sanitize_filename` output character is drawn.  This definition follows
the spec's words, for comparison against the code's behaviour. -/
def specClaimedAllowed (c : Char) : Bool :=
  ('A' ≤ c && c ≤ 'Z') || ('a' ≤ c && c ≤ 'z') || ('0' ≤ c && c ≤ '9') ||
  c == '_' || c == '.' || c == '-' || c == ' '

/-- A one-file state: file 1 belongs to user 2 with no team; user 1 is
unrelated to it. -/
def stOneFile : St :=
  { files := [{ id := 1, name := "a.md", filePath := "data/files/000/1_a.md",
                fileSize := 3, checksum := "", mimeType := "text/markdown",
                ownerId := 2, teamId := none, createdAt := 0, updatedAt := 0,
                deletedAt := none }],
    teams := [], members := [], users := [], versions := [], activities := [],
    fs := [("data/files/000/1_a.md", strUtf8 "abc")],
    nextFileId := 2, nextTeamId := 1, nextMemberId := 1, nextVersionId := 1,
    now := 0 }

/-- A team state: team 1 owned by user 1; user 1 is an admin member, user 2 a
plain member. -/
def stTeam : St :=
  { files := [],
    teams := [⟨1, "T", "d", 1, 0⟩],
    members := [⟨1, 1, 1, "admin", 0⟩, ⟨2, 1, 2, "member", 0⟩],
    users := [⟨1, "a@x"⟩, ⟨2, "b@x"⟩],
    versions := [], activities := [], fs := [],
    nextFileId := 1, nextTeamId := 2, nextMemberId := 3, nextVersionId := 1,
    now := 0 }

/-- `stTeam` plus one file owned by user 2 and shared with team 1. -/
def stTeamFile : St :=
  { stTeam with
    files := [⟨1, "a.md", "data/files/000/1_a.md", 3, "", "text/markdown", 2,
               some 1, 0, 0, none⟩],
    nextFileId := 2 }

/-- Two file rows live in the same visibility scope: same team when
`team_id` is set, same owner when both are personal. -/
def FileScopeEq (f g : FileRow) : Prop :=
  f.teamId = g.teamId ∧ (f.teamId = none → f.ownerId = g.ownerId)

/-- The uniqueness invariant of the claim: no two non-deleted rows share
`(name, scope)`. -/
def UniqueNames (s : St) : Prop :=
  s.files.Pairwise (fun f g =>
    f.deletedAt = none → g.deletedAt = none → f.name = g.name → ¬ FileScopeEq f g)

/-- Auto-increment discipline: every stored row's id is below the next id. -/
def FreshIds (s : St) : Prop := ∀ f ∈ s.files, f.id < s.nextFileId

instance (f g : FileRow) : Decidable (FileScopeEq f g) := by
  rw [FileScopeEq]; infer_instance

instance (s : St) : Decidable (UniqueNames s) := by
  rw [UniqueNames]; infer_instance

instance (s : St) : Decidable (FreshIds s) := by
  rw [FreshIds]; infer_instance

/-- The storage path of file 1 named `a.md`. -/
def pathC2 : String := FileStorage.generate_file_path 1 "a.md"

/-- A state holding file 1 (owner 1, personal) whose stored content is
`"old"`, with matching size and checksum. -/
def stC2 : St :=
  { files := [{ id := 1, name := "a.md", filePath := pathC2,
                fileSize := (strUtf8 "old").length,
                checksum := sha256Hex (strUtf8 "old"),
                mimeType := "text/markdown", ownerId := 1, teamId := none,
                createdAt := 0, updatedAt := 0, deletedAt := none }],
    teams := [], members := [], users := [], versions := [], activities := [],
    fs := [(pathC2, strUtf8 "old")],
    nextFileId := 2, nextTeamId := 1, nextMemberId := 1, nextVersionId := 1,
    now := 5 }

/-! ## Theorems -/

example : sanitize_filename "../etc/passwd" = "etcpasswd" := by decide

example : sanitize_filename "  notes.md  " = "notes.md" := by decide

example : sanitize_filename "<<>>" = "untitled" := by decide

example : sanitize_filename "a\tb" = "a\tb" := by decide

theorem utf8EncodeChar_length_pos (n : Nat) : 0 < (utf8EncodeChar n).length := by
  unfold utf8EncodeChar
  split <;> simp_all
  split <;> simp_all
  split <;> simp_all

theorem utf8DecodeAux_one (fuel b0 : Nat) (bs : List Nat) (h : b0 < 0x80) :
    utf8DecodeAux (fuel+1) (b0 :: bs) = (utf8DecodeAux fuel bs).map (b0 :: ·) := by
  simp [utf8DecodeAux, h]

theorem utf8DecodeAux_two (fuel b0 b1 : Nat) (bs : List Nat)
    (h0 : 0xC0 ≤ b0) (h1 : b0 < 0xE0) (hcont : b1 / 64 = 2) :
    utf8DecodeAux (fuel+1) (b0 :: b1 :: bs) =
      (utf8DecodeAux fuel bs).map (((b0 - 0xC0) * 64 + (b1 - 0x80)) :: ·) := by
  have hA : ¬ b0 < 0x80 := by omega
  have hB : ¬ b0 < 0xC0 := by omega
  simp [utf8DecodeAux, hA, hB, h1, hcont]

theorem utf8DecodeAux_three (fuel b0 b1 b2 : Nat) (bs : List Nat)
    (h0 : 0xE0 ≤ b0) (h1 : b0 < 0xF0) (hc1 : b1 / 64 = 2) (hc2 : b2 / 64 = 2) :
    utf8DecodeAux (fuel+1) (b0 :: b1 :: b2 :: bs) =
      (utf8DecodeAux fuel bs).map
        (((b0 - 0xE0) * 4096 + (b1 - 0x80) * 64 + (b2 - 0x80)) :: ·) := by
  have hA : ¬ b0 < 0x80 := by omega
  have hB : ¬ b0 < 0xC0 := by omega
  have hC : ¬ b0 < 0xE0 := by omega
  simp [utf8DecodeAux, hA, hB, hC, h1, hc1, hc2]

theorem utf8DecodeAux_four (fuel b0 b1 b2 b3 : Nat) (bs : List Nat)
    (h0 : 0xF0 ≤ b0) (h1 : b0 < 0xF8) (hc1 : b1 / 64 = 2) (hc2 : b2 / 64 = 2)
    (hc3 : b3 / 64 = 2) :
    utf8DecodeAux (fuel+1) (b0 :: b1 :: b2 :: b3 :: bs) =
      (utf8DecodeAux fuel bs).map
        (((b0 - 0xF0) * 262144 + (b1 - 0x80) * 4096 + (b2 - 0x80) * 64 +
          (b3 - 0x80)) :: ·) := by
  have hA : ¬ b0 < 0x80 := by omega
  have hB : ¬ b0 < 0xC0 := by omega
  have hC : ¬ b0 < 0xE0 := by omega
  have hD : ¬ b0 < 0xF0 := by omega
  simp [utf8DecodeAux, hA, hB, hC, hD, h1, hc1, hc2, hc3]

theorem utf8DecodeAux_encodeChar (c : Nat) (hc : c < 0x110000) (rest : List Nat)
    (fuel : Nat) :
    utf8DecodeAux (fuel + 1) (utf8EncodeChar c ++ rest) =
      (utf8DecodeAux fuel rest).map (c :: ·) := by
  by_cases h1 : c < 0x80
  · have henc : utf8EncodeChar c = [c] := by rw [utf8EncodeChar, if_pos h1]
    rw [henc, List.cons_append, List.nil_append, utf8DecodeAux_one fuel c rest h1]
  · by_cases h2 : c < 0x800
    · have henc : utf8EncodeChar c = [0xC0 + c / 64, 0x80 + c % 64] := by
        rw [utf8EncodeChar, if_neg h1, if_pos h2]
      rw [henc, List.cons_append, List.cons_append, List.nil_append,
          utf8DecodeAux_two fuel _ _ rest (by omega) (by omega) (by omega)]
      have hv : (0xC0 + c / 64 - 0xC0) * 64 + (0x80 + c % 64 - 0x80) = c := by omega
      rw [hv]
    · by_cases h3 : c < 0x10000
      · have henc : utf8EncodeChar c =
            [0xE0 + c / 4096, 0x80 + c / 64 % 64, 0x80 + c % 64] := by
          rw [utf8EncodeChar, if_neg h1, if_neg h2, if_pos h3]
        rw [henc, List.cons_append, List.cons_append, List.cons_append,
            List.nil_append,
            utf8DecodeAux_three fuel _ _ _ rest (by omega) (by omega) (by omega)
              (by omega)]
        have hv : (0xE0 + c / 4096 - 0xE0) * 4096 + (0x80 + c / 64 % 64 - 0x80) * 64 +
            (0x80 + c % 64 - 0x80) = c := by omega
        rw [hv]
      · have henc : utf8EncodeChar c =
            [0xF0 + c / 262144, 0x80 + c / 4096 % 64, 0x80 + c / 64 % 64,
             0x80 + c % 64] := by
          rw [utf8EncodeChar, if_neg h1, if_neg h2, if_neg h3]
        rw [henc, List.cons_append, List.cons_append, List.cons_append,
            List.cons_append, List.nil_append,
            utf8DecodeAux_four fuel _ _ _ _ rest (by omega) (by omega) (by omega)
              (by omega) (by omega)]
        have hv : (0xF0 + c / 262144 - 0xF0) * 262144 + (0x80 + c / 4096 % 64 - 0x80) * 4096 +
            (0x80 + c / 64 % 64 - 0x80) * 64 + (0x80 + c % 64 - 0x80) = c := by omega
        rw [hv]

theorem utf8DecodeAux_encode (cs : List Nat) (hc : ∀ c ∈ cs, c < 0x110000) :
    ∀ fuel, cs.length ≤ fuel → utf8DecodeAux fuel (utf8Encode cs) = some cs := by
  induction cs with
  | nil => intro fuel _; cases fuel <;> rfl
  | cons c cs ih =>
    intro fuel hfuel
    match fuel, hfuel with
    | fuel + 1, hfuel =>
      have hcs : utf8Encode (c :: cs) = utf8EncodeChar c ++ utf8Encode cs := by
        simp [utf8Encode]
      rw [hcs, utf8DecodeAux_encodeChar c (hc c (by simp)) _ fuel,
          ih (fun x hx => hc x (by simp [hx])) fuel (by simpa using hfuel)]
      rfl

theorem utf8Encode_length_ge (cs : List Nat) : cs.length ≤ (utf8Encode cs).length := by
  induction cs with
  | nil => simp [utf8Encode]
  | cons c cs ih =>
    have h : utf8Encode (c :: cs) = utf8EncodeChar c ++ utf8Encode cs := by
      simp [utf8Encode]
    rw [h]
    simp only [List.length_append, List.length_cons]
    have := utf8EncodeChar_length_pos c
    omega

/-- Round trip at the level of code points. -/
theorem utf8Decode_encode (cs : List Nat) (hc : ∀ c ∈ cs, c < 0x110000) :
    utf8Decode (utf8Encode cs) = some cs :=
  utf8DecodeAux_encode cs hc _ (utf8Encode_length_ge cs)

theorem char_toNat_lt (c : Char) : c.toNat < 0x110000 := by
  have h := c.valid
  rcases h with h | h
  · exact Nat.lt_trans h (by norm_num)
  · exact h.2

/-- Round trip at the level of strings. -/
theorem utf8_roundtrip (s : String) :
    (utf8Decode (strUtf8 s)).map codesToString = some s := by
  have hvalid : ∀ c ∈ strCodes s, c < 0x110000 := by
    intro c hc
    simp only [strCodes, List.mem_map] at hc
    obtain ⟨a, _, rfl⟩ := hc
    exact char_toNat_lt a
  rw [strUtf8, utf8Decode_encode (strCodes s) hvalid]
  show some (codesToString (strCodes s)) = some s
  have h : codesToString (strCodes s) = s := by
    cases s with
    | mk data =>
      show String.mk ((data.map Char.toNat).map Char.ofNat) = String.mk data
      congr 1
      rw [List.map_map]
      exact (List.map_congr_left (fun a _ => Char.ofNat_toNat a)).trans
        (List.map_id data)
  rw [h]

example : sha256Hex (strUtf8 "hello") =
    "2cf24dba5fb0a30e26e83b2ac5b9e29e1b161e5c1fa7425e73043362938b9824" := by decide

theorem fsLookup_write_self (fs : FStore) (p : String) (b : List Nat) :
    fsLookup (fsWrite fs p b) p = some b := by
  simp [fsLookup, fsWrite, List.find?]

theorem sha256Round_length (w : Array Nat) (st : List Nat) (i : Nat)
    (h : st.length = 8) : (sha256Round w st i).length = 8 := by
  match st, h with
  | [a, b, c, d, e, f, g, h], _ => rfl

theorem compressBlock_length (hs block : List Nat) (h : hs.length = 8) :
    (compressBlock hs block).length = 8 := by
  rw [compressBlock]
  have hfold : ∀ (l : List Nat) (st : List Nat), st.length = 8 →
      (l.foldl (sha256Round (sha256Schedule block)) st).length = 8 := by
    intro l
    induction l with
    | nil => intro st hst; exact hst
    | cons x xs ih =>
      intro st hst
      exact ih _ (sha256Round_length _ st x hst)
  simp only [List.length_zipWith, h, hfold (List.range 64) hs h, Nat.min_self]

theorem sha256Words_length (msg : List Nat) : (sha256Words msg).length = 8 := by
  rw [sha256Words]
  have h : ∀ (bs : List (List Nat)) (hs : List Nat), hs.length = 8 →
      (bs.foldl compressBlock hs).length = 8 := by
    intro bs
    induction bs with
    | nil => intro hs hh; exact hh
    | cons b bs ih => intro hs hh; exact ih _ (compressBlock_length hs b hh)
  exact h _ sha256H0 rfl

/-- The digest is 64 hex characters, i.e. 256 bits. -/
theorem sha256Hex_length (msg : List Nat) : (sha256Hex msg).length = 64 := by
  show (String.mk ((sha256Words msg).map hex8).flatten).length = 64
  have h : ∀ w, (hex8 w).length = 8 := fun w => by simp [hex8]
  have hsum : ∀ (l : List Nat), ((l.map hex8).map List.length).sum = 8 * l.length := by
    intro l
    induction l with
    | nil => simp
    | cons x xs ih =>
      simp only [List.map_cons, List.sum_cons, h x, ih, List.length_cons]
      ring
  show (((sha256Words msg).map hex8).flatten).length = 64
  rw [List.length_flatten, hsum, sha256Words_length]

theorem dropWhile_head_false {α : Type} (p : α → Bool) (l : List α) :
    ∀ c ∈ (l.dropWhile p).head?, p c = false := by
  induction l with
  | nil => intro c hc; simp at hc
  | cons a l ih =>
    intro c hc
    by_cases hpa : p a = true
    · rw [List.dropWhile_cons_of_pos hpa] at hc
      exact ih c hc
    · rw [List.dropWhile_cons_of_neg hpa] at hc
      simp only [List.head?_cons, Option.mem_def, Option.some_inj] at hc
      subst hc
      exact Bool.eq_false_iff.mpr hpa

theorem mem_pyStripBy {p : Char → Bool} {l : List Char} {c : Char}
    (h : c ∈ pyStripBy p l) : c ∈ l := by
  rw [pyStripBy, List.mem_reverse] at h
  have h1 := (List.dropWhile_sublist p).mem h
  rw [List.mem_reverse] at h1
  exact (List.dropWhile_sublist p).mem h1

theorem pyStripBy_getLast_false (p : Char → Bool) (l : List Char) :
    ∀ c ∈ (pyStripBy p l).getLast?, p c = false := by
  intro c hc
  rw [pyStripBy, List.getLast?_reverse] at hc
  exact dropWhile_head_false p _ c hc

theorem pyStripBy_head_false (p : Char → Bool) (l : List Char) :
    ∀ c ∈ (pyStripBy p l).head?, p c = false := by
  intro c hc
  rw [pyStripBy, List.head?_reverse] at hc
  set B := List.dropWhile p (List.dropWhile p l).reverse with hB
  rcases hBe : B with _ | ⟨b, bs⟩
  · rw [hBe] at hc; simp at hc
  · have hne : B ≠ [] := by rw [hBe]; simp
    obtain ⟨t, ht⟩ := List.dropWhile_suffix (l := (List.dropWhile p l).reverse) p
    have hgl : B.getLast? = ((List.dropWhile p l).reverse).getLast? := by
      conv_rhs => rw [← ht]
      rw [List.getLast?_append]
      rcases hgs : B.getLast? with _ | g
      · exact absurd (List.getLast?_eq_none_iff.mp hgs) hne
      · rfl
    rw [hgl, List.getLast?_reverse] at hc
    exact dropWhile_head_false p _ c hc

theorem sanitize_filename_ne_empty (nm : String) : sanitize_filename nm ≠ "" := by
  rw [sanitize_filename]
  split
  · decide
  · rename_i hne
    intro h
    have hd : (pyStripBy isDotSpace (nm.data.filter pyKeep)).take 255 = [] :=
      congrArg String.data h
    rw [List.take_eq_nil_iff] at hd
    rcases hd with hd | hd
    · exact absurd hd (by decide)
    · rw [List.isEmpty_iff] at hne
      exact hne hd

/-- C9, counterexample: the claim says every output character lies in
`[A-Za-z0-9_.\- ]` (space included), but Python's `\s` class keeps every
whitespace character: on input `"a\tb"` the tab survives sanitization and is
outside the claimed set. -/
theorem C9_counterexample :
    sanitize_filename "a\tb" = "a\tb" ∧
    (sanitize_filename "a\tb").data.any (fun c => !specClaimedAllowed c) = true := by
  decide

/-- C9, amended: every output character is kept by the code's class
`[\w\s.-]` (Python word characters, Python whitespace — including tab and
newline — dot and hyphen); the length is at most 255; the first character is
never a dot or space; the last character is never a dot or space provided the
stripped name did not exceed 255 characters (truncation can reintroduce a
trailing dot or space); and the result is `"untitled"` exactly when the
stripped name is empty — or happens to literally be `"untitled"`. -/
theorem C9_sanitize_filename_amended (name : String) :
    (∀ c ∈ (sanitize_filename name).data, pyKeep c = true) ∧
    (sanitize_filename name).data.length ≤ 255 ∧
    (∀ c ∈ (sanitize_filename name).data.head?, isDotSpace c = false) ∧
    ((pyStripBy isDotSpace (name.data.filter pyKeep)).length ≤ 255 →
      ∀ c ∈ (sanitize_filename name).data.getLast?, isDotSpace c = false) ∧
    (sanitize_filename name = "untitled" ↔
      (pyStripBy isDotSpace (name.data.filter pyKeep) = [] ∨
       pyStripBy isDotSpace (name.data.filter pyKeep) = "untitled".data)) := by
  rw [sanitize_filename]
  by_cases hs : (pyStripBy isDotSpace (name.data.filter pyKeep)).isEmpty
  · rw [if_pos hs]
    rw [List.isEmpty_iff] at hs
    refine ⟨by decide, by decide, by decide, fun _ => by decide, ?_⟩
    exact ⟨fun _ => Or.inl hs, fun _ => rfl⟩
  · rw [if_neg hs]
    rw [List.isEmpty_iff] at hs
    refine ⟨?_, ?_, ?_, ?_, ?_⟩
    · intro c hc
      have h1 : c ∈ pyStripBy isDotSpace (name.data.filter pyKeep) :=
        List.mem_of_mem_take hc
      have h2 := mem_pyStripBy h1
      exact (List.mem_filter.mp h2).2
    · show (List.take 255 _).length ≤ 255
      rw [List.length_take]
      omega
    · intro c hc
      rw [show ((String.mk (List.take 255 (pyStripBy isDotSpace (name.data.filter pyKeep)))).data) = List.take 255 (pyStripBy isDotSpace (name.data.filter pyKeep)) from rfl, List.head?_take] at hc
      rw [if_neg (by omega)] at hc
      exact pyStripBy_head_false isDotSpace _ c hc
    · intro hlen c hc
      rw [show ((String.mk (List.take 255 (pyStripBy isDotSpace (name.data.filter pyKeep)))).data) = List.take 255 (pyStripBy isDotSpace (name.data.filter pyKeep)) from rfl, List.take_of_length_le hlen] at hc
      exact pyStripBy_getLast_false isDotSpace _ c hc
    · constructor
      · intro h
        have hd : List.take 255 (pyStripBy isDotSpace (name.data.filter pyKeep)) =
            "untitled".data := congrArg String.data h
        have hlen : (pyStripBy isDotSpace (name.data.filter pyKeep)).length ≤ 255 := by
          by_contra hgt
          have hL := congrArg List.length hd
          rw [List.length_take] at hL
          have h8 : ("untitled".data).length = 8 := rfl
          rw [h8] at hL
          omega
        rw [List.take_of_length_le hlen] at hd
        exact Or.inr hd
      · intro h
        rcases h with h | h
        · exact absurd h hs
        · rw [h]
          rfl

/-- C9 witness: the amended theorem applied at `"notes.md"`, whose stripped
name is within the length bound, so the trailing-character guarantee fires. -/
theorem C9_sanitize_filename_amended_witness :
    (pyStripBy isDotSpace (("notes.md").data.filter pyKeep)).length ≤ 255 ∧
    (∀ c ∈ (sanitize_filename "notes.md").data.getLast?, isDotSpace c = false) :=
  ⟨by decide, (C9_sanitize_filename_amended "notes.md").2.2.2.1 (by decide)⟩

theorem utf8Decode_strUtf8 (s : String) :
    utf8Decode (strUtf8 s) = some (strCodes s) := by
  rw [strUtf8]
  refine utf8Decode_encode (strCodes s) ?_
  intro c hc
  simp only [strCodes, List.mem_map] at hc
  obtain ⟨a, _, rfl⟩ := hc
  exact char_toNat_lt a

theorem map_ofNat_strCodes (s : String) : (strCodes s).map Char.ofNat = s.data := by
  cases s with
  | mk data =>
    show (data.map Char.toNat).map Char.ofNat = data
    rw [List.map_map]
    exact (List.map_congr_left (fun a _ => Char.ofNat_toNat a)).trans
      (List.map_id data)

theorem pyUniversalNewlines_cons_ne (c : Char) (rest : List Char)
    (h : c ≠ '\r') :
    pyUniversalNewlines (c :: rest) = c :: pyUniversalNewlines rest := by
  cases rest with
  | nil => simp [pyUniversalNewlines, h]
  | cons d rest2 => simp [pyUniversalNewlines, h]

theorem pyUniversalNewlines_no_cr (l : List Char) (h : '\r' ∉ l) :
    pyUniversalNewlines l = l := by
  induction l with
  | nil => rfl
  | cons c rest ih =>
    rw [List.mem_cons, not_or] at h
    rw [pyUniversalNewlines_cons_ne c rest (fun he => h.1 he.symm), ih h.2]

/-- C5 counterexample: the claim says the read returns exactly the saved
content for every string, but the text-mode read applies universal-newlines
translation: saving `"a\rb"` stores the bytes `61 0D 62` and reading the
location back yields `"a\nb"`, not `"a\rb"`. -/
theorem C5_counterexample :
    FileStorage.read_file (FileStorage.save_file [] "p" "a\rb").2 "p" =
      some "a\nb" ∧
    some "a\nb" ≠ some ("a\rb" : String) := by
  constructor
  · decide
  · decide

/-- C5, amended: `save_file(loc, content)` followed immediately by
`read_file(loc)` returns the content with universal-newlines translation
applied — each `"\r\n"` and each lone `"\r"` read back as `"\n"` (the source
reads in text mode with the default `newline=None`; on the repository's Linux
deployment the write side stores the plain UTF-8 bytes) — and therefore
returns exactly `content` whenever the content contains no carriage return.
`verify_file_integrity(loc, c)` returns true for the checksum `c` returned by
that `save_file` call, which is the SHA-256 hex digest (64 hex characters,
256 bits) of the stored UTF-8 bytes, whose count is the reported size. -/
theorem C5_storage_roundtrip (fs : FStore) (loc content : String) :
    FileStorage.read_file (FileStorage.save_file fs loc content).2 loc =
      some (String.mk (pyUniversalNewlines content.data)) ∧
    ('\r' ∉ content.data →
      FileStorage.read_file (FileStorage.save_file fs loc content).2 loc =
        some content) ∧
    FileStorage.verify_file_integrity (FileStorage.save_file fs loc content).2 loc
      (FileStorage.save_file fs loc content).1.2 = true ∧
    (FileStorage.save_file fs loc content).1.2 = sha256Hex (strUtf8 content) ∧
    ((FileStorage.save_file fs loc content).1.2).length = 64 ∧
    (FileStorage.save_file fs loc content).1.1 = (strUtf8 content).length := by
  have hlook :
      fsLookup (FileStorage.save_file fs loc content).2 loc = some (strUtf8 content) :=
    fsLookup_write_self fs loc (strUtf8 content)
  have hread :
      FileStorage.read_file (FileStorage.save_file fs loc content).2 loc =
        some (String.mk (pyUniversalNewlines content.data)) := by
    rw [FileStorage.read_file, hlook, Option.some_bind, utf8Decode_strUtf8]
    show some (textModeRead (strCodes content)) = _
    rw [textModeRead, map_ofNat_strCodes]
  refine ⟨hread, ?_, ?_, rfl, sha256Hex_length _, rfl⟩
  · intro hcr
    rw [hread, pyUniversalNewlines_no_cr content.data hcr]
  · rw [FileStorage.verify_file_integrity, hlook]
    exact beq_self_eq_true _

/-- C5 witness: `"hello"` contains no carriage return, so the round trip
returns it exactly. -/
theorem C5_storage_roundtrip_witness :
    ('\r' ∉ ("hello" : String).data) ∧
    FileStorage.read_file (FileStorage.save_file [] "loc" "hello").2 "loc" =
      some "hello" :=
  ⟨by decide, (C5_storage_roundtrip [] "loc" "hello").2.1 (by decide)⟩

/-- C1, confirmed: `check_file_access(u, f)` is true iff the user owns a
`files` row with that id or is a member (any role) of that row's team; and
whenever the predicate is false, each of `get_file_details`, `update_file`,
`delete_file` and `get_file_content` returns the `Access denied` failure with
an empty payload and leaves the entire state — metadata rows, versions and
content store — unchanged. -/
theorem C1_access_control (s : St) (u fid : Nat) (nm ct : Option String) :
    (check_file_access s u fid = true ↔
      ∃ f ∈ s.files, f.id = fid ∧
        (f.ownerId = u ∨
         ∃ t, f.teamId = some t ∧ ∃ m ∈ s.members, m.teamId = t ∧ m.userId = u)) ∧
    (check_file_access s u fid = false →
      FileService.get_file_details s fid u = ((false, "Access denied", none), s) ∧
      FileService.update_file s fid u nm ct = ((false, "Access denied", none), s) ∧
      FileService.delete_file s fid u = ((false, "Access denied"), s) ∧
      FileService.get_file_content s fid u = ((false, "Access denied", none), s)) := by
  constructor
  · constructor
    · intro h
      rw [check_file_access, List.any_eq_true] at h
      obtain ⟨f, hf, hp⟩ := h
      rw [Bool.and_eq_true, beq_iff_eq, Bool.or_eq_true, beq_iff_eq] at hp
      refine ⟨f, hf, hp.1, ?_⟩
      rcases hp.2 with howner | hteam
      · exact Or.inl howner
      · right
        rcases hft : f.teamId with _ | t
        · rw [hft] at hteam; exact absurd hteam (by simp)
        · rw [hft, List.any_eq_true] at hteam
          obtain ⟨m, hm, hmp⟩ := hteam
          rw [Bool.and_eq_true, beq_iff_eq, beq_iff_eq] at hmp
          exact ⟨t, rfl, m, hm, hmp.1, hmp.2⟩
    · rintro ⟨f, hf, hid, hrest⟩
      rw [check_file_access, List.any_eq_true]
      refine ⟨f, hf, ?_⟩
      rw [Bool.and_eq_true, beq_iff_eq, Bool.or_eq_true, beq_iff_eq]
      refine ⟨hid, ?_⟩
      rcases hrest with howner | ⟨t, hft, m, hm, hmt, hmu⟩
      · exact Or.inl howner
      · right
        rw [hft, List.any_eq_true]
        exact ⟨m, hm, by rw [Bool.and_eq_true, beq_iff_eq, beq_iff_eq]; exact ⟨hmt, hmu⟩⟩
  · intro h
    refine ⟨?_, ?_, ?_, ?_⟩
    · simp [FileService.get_file_details, h]
    · simp [FileService.update_file, h]
    · simp [FileService.delete_file, h]
    · simp [FileService.get_file_content, h]

/-- C1 witness: user 1 is neither owner nor team member of file 1 in
`stOneFile`, so the gate is false and a delete attempt is denied with the
state unchanged. -/
theorem C1_access_control_witness :
    check_file_access stOneFile 1 1 = false ∧
    FileService.delete_file stOneFile 1 1 = ((false, "Access denied"), stOneFile) :=
  ⟨by decide,
   ((C1_access_control stOneFile 1 1 none none).2 (by decide)).2.2.1⟩

theorem check_file_access_false_of_absent (s : St) (uid fid : Nat)
    (h : ∀ f ∈ s.files, f.id ≠ fid) : check_file_access s uid fid = false := by
  rw [check_file_access, List.any_eq_false]
  intro f hf
  rw [Bool.and_eq_true, beq_iff_eq]
  rintro ⟨hid, -⟩
  exact h f hf hid

theorem delete_file_success_files (s0 : St) (fid uid : Nat)
    (h : (FileService.delete_file s0 fid uid).1.1 = true) :
    ((FileService.delete_file s0 fid uid).2).files =
      s0.files.filter (fun f => !(f.id == fid)) := by
  revert h
  rcases hc : check_file_access s0 uid fid
  · simp [FileService.delete_file, hc]
  · rcases hfind : s0.files.find? (fun f => f.id == fid) with _ | fr
    · simp [FileService.delete_file, hc, hfind]
    · intro _
      simp [FileService.delete_file, hc, hfind, log_activity]

/-- C7, corrected: a `delete_file` call for an id with no `files` row — never
created, or already deleted by the hard `DELETE` — fails without raising, but
with the `Access denied` message, not `File not found`: the access gate runs
first and finds no row.  Repeating the call returns the same result (the state
is unchanged), and a `delete_file` immediately after a successful one is
likewise denied because every row with that id is gone.  `disband_team` on a
nonexistent team does return `Team not found`, on first and repeated calls. -/
theorem delete_file_denied (s : St) (fid uid : Nat)
    (h : check_file_access s uid fid = false) :
    FileService.delete_file s fid uid = ((false, "Access denied"), s) := by
  simp [FileService.delete_file, h]

theorem C7_missing_resources (s : St) (fid tid uid : Nat)
    (hf : ∀ f ∈ s.files, f.id ≠ fid) (ht : ∀ t ∈ s.teams, t.id ≠ tid) :
    FileService.delete_file s fid uid = ((false, "Access denied"), s) ∧
    TeamService.disband_team s tid uid = ((false, "Team not found"), s) ∧
    (∀ s0 : St, (FileService.delete_file s0 fid uid).1.1 = true →
      FileService.delete_file (FileService.delete_file s0 fid uid).2 fid uid =
        ((false, "Access denied"), (FileService.delete_file s0 fid uid).2)) := by
  have hchk := check_file_access_false_of_absent s uid fid hf
  refine ⟨delete_file_denied s fid uid hchk, ?_, ?_⟩
  · have hfind : s.teams.find? (fun t => t.id == tid) = none := by
      rw [List.find?_eq_none]
      intro t htm
      simp only [beq_iff_eq]
      exact ht t htm
    simp [TeamService.disband_team, hfind]
  · intro s0 hsucc
    have hfiles := delete_file_success_files s0 fid uid hsucc
    have hall : ∀ f ∈ (FileService.delete_file s0 fid uid).2.files, f.id ≠ fid := by
      rw [hfiles]
      intro f hf'
      have h2 := (List.mem_filter.mp hf').2
      simp only [Bool.not_eq_eq_eq_not, Bool.not_true, beq_eq_false_iff_ne, ne_eq] at h2
      exact h2
    have hchk2 := check_file_access_false_of_absent _ uid fid hall
    exact delete_file_denied _ fid uid hchk2

/-- C7 counterexample: deleting the nonexistent file 42 fails with
`Access denied`, not with the `File not found` (`NotFound`) failure the claim
states; the `File not found` branch is unreachable for absent rows because the
gate already fails. -/
theorem C7_counterexample :
    (FileService.delete_file stOneFile 42 7).1 = (false, "Access denied") ∧
    (FileService.delete_file stOneFile 42 7).1.2 ≠ "File not found" := by
  constructor
  · decide
  · decide

/-- C7 witness: the amended theorem applied at a state with no file 42 and no
team 9. -/
theorem C7_missing_resources_witness :
    (∀ f ∈ stOneFile.files, f.id ≠ 42) ∧
    FileService.delete_file stOneFile 42 7 = ((false, "Access denied"), stOneFile) ∧
    TeamService.disband_team stOneFile 9 7 = ((false, "Team not found"), stOneFile) :=
  ⟨by decide,
   (C7_missing_resources stOneFile 42 9 7 (by decide) (by decide)).1,
   (C7_missing_resources stOneFile 42 9 7 (by decide) (by decide)).2.1⟩

/-- C6, confirmed: (i) an actor with no membership row in the team is refused
with `Insufficient permissions` and nothing changes; (ii) likewise an actor
whose role is neither `admin` nor `owner`; (iii) whenever the target is the
team's owner the call fails and the whole state — in particular the
membership table — is unchanged, and when the actor does hold `admin`/`owner`
and the owner (as in every state produced by the API) has a membership row,
the message is the owner-protection `Cannot kick the team owner`. -/
theorem C6_kick_protections (s : St) (tid target actor : Nat) :
    (s.members.find? (fun m => m.teamId == tid && m.userId == actor) = none →
      TeamService.kick_user_from_team s tid target actor =
        ((false, "Insufficient permissions"), s)) ∧
    (∀ k, s.members.find? (fun m => m.teamId == tid && m.userId == actor) = some k →
      k.role ≠ "admin" → k.role ≠ "owner" →
      TeamService.kick_user_from_team s tid target actor =
        ((false, "Insufficient permissions"), s)) ∧
    (∀ team, s.teams.find? (fun t => t.id == tid) = some team →
      team.ownerId = target →
      (TeamService.kick_user_from_team s tid target actor).1.1 = false ∧
      (TeamService.kick_user_from_team s tid target actor).2 = s ∧
      (∀ k, s.members.find? (fun m => m.teamId == tid && m.userId == actor) = some k →
        (k.role = "admin" ∨ k.role = "owner") →
        (s.members.find? (fun m => m.teamId == tid && m.userId == target)).isSome = true →
        (TeamService.kick_user_from_team s tid target actor).1 =
          (false, "Cannot kick the team owner"))) := by
  refine ⟨?_, ?_, ?_⟩
  · intro hfind
    simp [TeamService.kick_user_from_team, hfind]
  · intro k hfind h1 h2
    have b1 : (k.role == "admin") = false := beq_eq_false_iff_ne.mpr h1
    have b2 : (k.role == "owner") = false := beq_eq_false_iff_ne.mpr h2
    simp [TeamService.kick_user_from_team, hfind, b1, b2]
  · intro team hteam howner
    rcases hkick : s.members.find? (fun m => m.teamId == tid && m.userId == actor) with _ | kk
    · refine ⟨?_, ?_, ?_⟩
      · simp [TeamService.kick_user_from_team, hkick]
      · simp [TeamService.kick_user_from_team, hkick]
      · intro k hk
        rw [hkick] at hk
        cases hk
    · by_cases hrole : (kk.role == "admin" || kk.role == "owner") = true
      · rcases htarget : s.members.find? (fun m => m.teamId == tid && m.userId == target) with _ | tm
        · refine ⟨?_, ?_, ?_⟩
          · simp [TeamService.kick_user_from_team, hkick, hrole, htarget]
          · simp [TeamService.kick_user_from_team, hkick, hrole, htarget]
          · intro k hk hkr hts
            rw [htarget] at hts
            simp at hts
        · have hob : (team.ownerId == target) = true := beq_iff_eq.mpr howner
          refine ⟨?_, ?_, ?_⟩
          · simp [TeamService.kick_user_from_team, hkick, hrole, htarget, hteam, hob]
          · simp [TeamService.kick_user_from_team, hkick, hrole, htarget, hteam, hob]
          · intro k hk hkr hts
            simp [TeamService.kick_user_from_team, hkick, hrole, htarget, hteam, hob]
      · refine ⟨?_, ?_, ?_⟩
        · simp [TeamService.kick_user_from_team, hkick, hrole]
        · simp [TeamService.kick_user_from_team, hkick, hrole]
        · intro k hk hkr hts
          rw [hkick] at hk
          injection hk with hk
          subst hk
          rcases hkr with h | h
          · exact absurd hrole (by simp [h])
          · exact absurd hrole (by simp [h])

/-- C6 witness: in `stTeam`, the plain member (user 2) cannot kick the owner
(`Insufficient permissions`), and the admin owner-targeting kick by user 1 is
refused with `Cannot kick the team owner`. -/
theorem C6_kick_protections_witness :
    TeamService.kick_user_from_team stTeam 1 1 2 =
      ((false, "Insufficient permissions"), stTeam) ∧
    (TeamService.kick_user_from_team stTeam 1 1 1).1 =
      (false, "Cannot kick the team owner") :=
  ⟨(C6_kick_protections stTeam 1 1 2).2.1 ⟨2, 1, 2, "member", 0⟩ (by decide)
     (by decide) (by decide),
   ((C6_kick_protections stTeam 1 1 1).2.2 ⟨1, "T", "d", 1, 0⟩ (by decide)
     (by decide)).2.2 ⟨1, 1, 1, "admin", 0⟩ (by decide) (Or.inl rfl) (by decide)⟩

theorem map_reassign_eq_self (l : List FileRow) (tid : Nat)
    (h : ∀ f ∈ l, (f.teamId == some tid) = false) :
    l.map (fun f => if f.teamId == some tid then { f with teamId := none } else f) = l := by
  have heq := List.map_congr_left (l := l)
    (f := fun f => if f.teamId == some tid then { f with teamId := none } else f)
    (g := id) (fun f hf => by simp [h f hf])
  rw [heq, List.map_id]

theorem mem_map_reassign (l : List FileRow) (tid : Nat) :
    ∀ f ∈ l.map (fun f =>
      if f.teamId == some tid then { f with teamId := none } else f),
      f.teamId ≠ some tid := by
  intro f hf
  obtain ⟨g0, hg0, rfl⟩ := List.mem_map.mp hf
  by_cases h : (g0.teamId == some tid) = true
  · simp [h]
  · rw [if_neg (by simpa using h)]
    simpa using h

/-- C4, confirmed: when the team exists and the caller is its owner,
`disband_team` succeeds; afterwards the `files` table is exactly the old one
with `team_id` nulled on every row that carried the disbanded team — all other
fields, `owner_id` in particular, untouched — no file references the team any
more, and the team row and every membership row of the team are deleted.  In
the source the `UPDATE files SET team_id = NULL` executes before the
membership and team `DELETE`s, which the sequencing of the model mirrors. -/
theorem C4_disband_team (s : St) (tid uid : Nat) (team : TeamRow)
    (hfind : s.teams.find? (fun t => t.id == tid) = some team)
    (howner : team.ownerId = uid) :
    (TeamService.disband_team s tid uid).1.1 = true ∧
    (TeamService.disband_team s tid uid).2.files =
      s.files.map (fun f =>
        if f.teamId == some tid then { f with teamId := none } else f) ∧
    (∀ f ∈ (TeamService.disband_team s tid uid).2.files, f.teamId ≠ some tid) ∧
    (TeamService.disband_team s tid uid).2.teams =
      s.teams.filter (fun t => !(t.id == tid)) ∧
    (TeamService.disband_team s tid uid).2.members =
      s.members.filter (fun m => !(m.teamId == tid)) := by
  have hbne : (team.ownerId != uid) = false := by simp [howner]
  by_cases hc : 0 < (s.files.filter (fun f => f.teamId == some tid)).length
  · have h2 : (TeamService.disband_team s tid uid).2.files =
        s.files.map (fun f =>
          if f.teamId == some tid then { f with teamId := none } else f) := by
      simp only [TeamService.disband_team, hfind, hbne, Bool.false_eq_true,
        if_false, log_activity]
      rw [if_pos hc]
    refine ⟨?_, h2, ?_, ?_, ?_⟩
    · simp only [TeamService.disband_team, hfind, hbne, Bool.false_eq_true,
        if_false, log_activity]
    · rw [h2]
      exact mem_map_reassign s.files tid
    · simp only [TeamService.disband_team, hfind, hbne, Bool.false_eq_true,
        if_false, log_activity]
      rw [if_pos hc]
    · simp only [TeamService.disband_team, hfind, hbne, Bool.false_eq_true,
        if_false, log_activity]
      rw [if_pos hc]
  · have hnil : s.files.filter (fun f => f.teamId == some tid) = [] := by
      cases hh : s.files.filter (fun f => f.teamId == some tid) with
      | nil => rfl
      | cons a l => rw [hh] at hc; simp at hc
    have hall : ∀ f ∈ s.files, (f.teamId == some tid) = false := by
      intro f hf
      rcases hb : (f.teamId == some tid) with _ | _
      · rfl
      · exact absurd (List.mem_filter.mpr ⟨hf, hb⟩) (by rw [hnil]; simp)
    have hself := map_reassign_eq_self s.files tid hall
    have h2 : (TeamService.disband_team s tid uid).2.files =
        s.files.map (fun f =>
          if f.teamId == some tid then { f with teamId := none } else f) := by
      simp only [TeamService.disband_team, hfind, hbne, Bool.false_eq_true,
        if_false, log_activity]
      rw [if_neg hc, hself]
    refine ⟨?_, h2, ?_, ?_, ?_⟩
    · simp only [TeamService.disband_team, hfind, hbne, Bool.false_eq_true,
        if_false, log_activity]
    · rw [h2]
      exact mem_map_reassign s.files tid
    · simp only [TeamService.disband_team, hfind, hbne, Bool.false_eq_true,
        if_false, log_activity]
      rw [if_neg hc]
    · simp only [TeamService.disband_team, hfind, hbne, Bool.false_eq_true,
        if_false, log_activity]
      rw [if_neg hc]

/-- C4 witness: disbanding team 1 as its owner succeeds and leaves no file
pointing at the team. -/
theorem C4_disband_team_witness :
    stTeamFile.teams.find? (fun t => t.id == 1) = some ⟨1, "T", "d", 1, 0⟩ ∧
    (TeamService.disband_team stTeamFile 1 1).1.1 = true ∧
    (∀ f ∈ (TeamService.disband_team stTeamFile 1 1).2.files, f.teamId ≠ some 1) :=
  ⟨by decide,
   (C4_disband_team stTeamFile 1 1 ⟨1, "T", "d", 1, 0⟩ (by decide) rfl).1,
   (C4_disband_team stTeamFile 1 1 ⟨1, "T", "d", 1, 0⟩ (by decide) rfl).2.2.1⟩

theorem map_if_id_of_fresh (l : List FileRow) (n : Nat) (g : FileRow → FileRow)
    (h : ∀ f ∈ l, f.id < n) :
    l.map (fun f => if f.id == n then g f else f) = l := by
  have heq := List.map_congr_left (l := l)
    (f := fun f => if f.id == n then g f else f) (g := id)
    (fun f hf => by
      have hne : (f.id == n) = false := beq_eq_false_iff_ne.mpr (Nat.ne_of_lt (h f hf))
      simp [hne])
  rw [heq, List.map_id]

/-- Appending a fresh row whose `(name, scope)` collides with no existing row
preserves the pairwise uniqueness relation; the patch applied by the second
phase of the insert touches only rows with the fresh id and leaves the key
fields of the new row unchanged. -/
theorem unique_preserved_generic (files : List FileRow) (row0 : FileRow)
    (g : FileRow → FileRow) (n : Nat)
    (hFresh : ∀ f ∈ files, f.id < n) (hrow : row0.id = n)
    (hgname : (g row0).name = row0.name) (hgteam : (g row0).teamId = row0.teamId)
    (hgowner : (g row0).ownerId = row0.ownerId)
    (hInv : List.Pairwise (fun f g => f.deletedAt = none → g.deletedAt = none →
      f.name = g.name → ¬ FileScopeEq f g) files)
    (hnodup : ∀ a ∈ files, a.name = row0.name → ¬ FileScopeEq a row0) :
    List.Pairwise (fun f g => f.deletedAt = none → g.deletedAt = none →
      f.name = g.name → ¬ FileScopeEq f g)
      ((files ++ [row0]).map (fun f => if f.id == n then g f else f)) := by
  have hself : (row0.id == n) = true := beq_iff_eq.mpr hrow
  rw [List.map_append, map_if_id_of_fresh files n g hFresh, List.map_cons,
      List.map_nil, if_pos hself, List.pairwise_append]
  refine ⟨hInv, List.pairwise_singleton _ _, ?_⟩
  intro a ha b hb
  rw [List.mem_singleton] at hb
  subst hb
  intro _ _ hname hscope
  refine hnodup a ha (hname.trans hgname) ⟨?_, ?_⟩
  · exact hscope.1.trans hgteam
  · intro hnone
    exact (hscope.2 hnone).trans hgowner

/-- C3, confirmed: (i) under the preconditions that run before the duplicate
check — a non-blank name, and team membership when a team id is supplied — a
`create_file` whose sanitized name collides with an existing non-deleted file
of the same scope returns exactly the `File with this name already exists`
failure with the state unchanged: no row inserted, no content written; and
(ii) a successful `create_file` preserves the uniqueness invariant.  `tid ≠
some 0` holds for every client-reachable call: team ids are positive
auto-increment values. -/
theorem C3_create_file_unique (s : St) (name content : String) (owner : Nat)
    (tid : Option Nat) (hInv : UniqueNames s) (hFresh : FreshIds s)
    (hTid : tid ≠ some 0) :
    ((pyStrip name ≠ "") →
      (∀ t, tid = some t →
        (s.members.any (fun m => some m.teamId == some t && m.userId == owner)) = true) →
      (∃ f ∈ s.files, f.deletedAt = none ∧
        f.name = sanitize_filename (pyStrip name) ∧ f.teamId = tid ∧
        (tid = none → f.ownerId = owner)) →
      FileService.create_file s name content owner tid =
        ((false, "File with this name already exists", none), s)) ∧
    ((FileService.create_file s name content owner tid).1.1 = true →
      UniqueNames (FileService.create_file s name content owner tid).2) := by
  have h2 : (sanitize_filename (pyStrip name) == "") = false :=
    beq_eq_false_iff_ne.mpr (sanitize_filename_ne_empty _)
  constructor
  · intro hname hmem hdup
    have h1 : (pyStrip name == "") = false := beq_eq_false_iff_ne.mpr hname
    have hacc : (truthy tid &&
        !(s.members.any (fun m => some m.teamId == tid && m.userId == owner))) = false := by
      rcases tid with _ | t
      · rfl
      · have ht0 : t ≠ 0 := fun h => hTid (by rw [h])
        rw [hmem t rfl]
        simp
    obtain ⟨f, hfmem, hfdel, hfname, hfteam, hfowner⟩ := hdup
    rcases htid : tid with _ | t
    · have hdupb : (s.files.any (fun f =>
          f.name == sanitize_filename (pyStrip name) && f.ownerId == owner &&
          f.teamId == none)) = true := by
        rw [List.any_eq_true]
        refine ⟨f, hfmem, ?_⟩
        rw [htid] at hfteam hfowner
        simp [hfname, hfowner rfl, hfteam]
      simp only [FileService.create_file, h1, h2, Bool.false_eq_true, if_false,
        truthy, hdupb, if_true]
      simp
    · have htr : truthy (some t) = true := by
        have ht0 : t ≠ 0 := fun h => hTid (by rw [htid, h])
        simp [truthy, ht0]
      have hdupb : (s.files.any (fun f =>
          f.name == sanitize_filename (pyStrip name) && f.teamId == some t)) = true := by
        rw [List.any_eq_true]
        refine ⟨f, hfmem, ?_⟩
        rw [htid] at hfteam
        simp [hfname, hfteam]
      have hnot : (s.members.any fun m => some m.teamId == some t && m.userId == owner)
          = true := hmem t htid
      simp only [FileService.create_file, h1, h2, Bool.false_eq_true, if_false,
        htr, hnot, hdupb, if_true]
      simp
  · by_cases h1 : (pyStrip name == "") = true
    · simp [FileService.create_file, h1]
    · rw [Bool.not_eq_true] at h1
      by_cases h3 : (truthy tid &&
          !(s.members.any (fun m => some m.teamId == tid && m.userId == owner))) = true
      · simp [FileService.create_file, h1, h2, h3]
      · rw [Bool.not_eq_true] at h3
        by_cases h4 : (if truthy tid then
            s.files.any (fun f =>
              f.name == sanitize_filename (pyStrip name) && f.teamId == tid)
          else
            s.files.any (fun f =>
              f.name == sanitize_filename (pyStrip name) && f.ownerId == owner &&
              f.teamId == none)) = true
        · simp [FileService.create_file, h1, h2, h3, h4]
        · rw [Bool.not_eq_true] at h4
          intro _
          simp only [FileService.create_file, h1, h2, h3, h4, Bool.false_eq_true,
            if_false, log_activity]
          rw [UniqueNames]
          refine unique_preserved_generic s.files _ _ s.nextFileId hFresh rfl rfl
            rfl rfl hInv ?_
          intro a ha hname hscope
          rcases htid : tid with _ | t
          · rw [htid] at h4
            simp only [truthy, Bool.false_eq_true, if_false] at h4
            rw [List.any_eq_false] at h4
            refine h4 a ha ?_
            have hteam : a.teamId = none := by
              have := hscope.1
              rw [htid] at this
              exact this
            have honer : a.ownerId = owner := by
              have := hscope.2 hteam
              rw [this]
            simp [hname, hteam, honer]
          · have ht0 : t ≠ 0 := fun h => hTid (by rw [htid, h])
            rw [htid] at h4
            simp only [truthy, ne_eq, ht0, not_false_iff, bne_iff_ne, if_true] at h4
            rw [List.any_eq_false] at h4
            refine h4 a ha ?_
            have hteam : a.teamId = some t := by
              have := hscope.1
              rw [htid] at this
              exact this
            simp [hname, hteam]

/-- Conflict path of `create_file`: under a passing name check and team
check, a true duplicate check yields exactly the conflict failure, with the
state returned untouched. -/
theorem create_file_conflict (s : St) (name content : String) (owner : Nat)
    (tid : Option Nat)
    (h1 : (pyStrip name == "") = false)
    (hacc : (truthy tid &&
      !(s.members.any (fun m => some m.teamId == tid && m.userId == owner))) = false)
    (hdup : (if truthy tid then
        s.files.any (fun f =>
          f.name == sanitize_filename (pyStrip name) && f.teamId == tid)
      else
        s.files.any (fun f =>
          f.name == sanitize_filename (pyStrip name) && f.ownerId == owner &&
          f.teamId == none)) = true) :
    FileService.create_file s name content owner tid =
      ((false, "File with this name already exists", none), s) := by
  have h2 : (sanitize_filename (pyStrip name) == "") = false :=
    beq_eq_false_iff_ne.mpr (sanitize_filename_ne_empty _)
  simp only [FileService.create_file, h1, h2, hacc, Bool.false_eq_true, if_false,
    hdup, if_true]

/-- Success path of `create_file`: the post-state appends exactly one row,
carrying the sanitized name, the given owner and team, the generated path and
the size/checksum returned by the content store; other tables are untouched. -/
theorem create_file_success_state (s : St) (name content : String) (owner : Nat)
    (tid : Option Nat) (hFresh : FreshIds s)
    (h1 : (pyStrip name == "") = false)
    (hacc : (truthy tid &&
      !(s.members.any (fun m => some m.teamId == tid && m.userId == owner))) = false)
    (hdup : (if truthy tid then
        s.files.any (fun f =>
          f.name == sanitize_filename (pyStrip name) && f.teamId == tid)
      else
        s.files.any (fun f =>
          f.name == sanitize_filename (pyStrip name) && f.ownerId == owner &&
          f.teamId == none)) = false) :
    (FileService.create_file s name content owner tid).1.1 = true ∧
    (FileService.create_file s name content owner tid).2.files = s.files ++
      [{ id := s.nextFileId, name := sanitize_filename (pyStrip name),
         filePath := FileStorage.generate_file_path s.nextFileId
           (sanitize_filename (pyStrip name)),
         fileSize := (FileStorage.save_file s.fs
           (FileStorage.generate_file_path s.nextFileId
             (sanitize_filename (pyStrip name))) content).1.1,
         checksum := (FileStorage.save_file s.fs
           (FileStorage.generate_file_path s.nextFileId
             (sanitize_filename (pyStrip name))) content).1.2,
         mimeType := (guessMimeType (sanitize_filename (pyStrip name))).getD
           "text/plain",
         ownerId := owner, teamId := tid, createdAt := s.now, updatedAt := s.now,
         deletedAt := none }] ∧
    (FileService.create_file s name content owner tid).2.members = s.members := by
  have h2 : (sanitize_filename (pyStrip name) == "") = false :=
    beq_eq_false_iff_ne.mpr (sanitize_filename_ne_empty _)
  refine ⟨?_, ?_, ?_⟩
  · simp only [FileService.create_file, h1, h2, hacc, Bool.false_eq_true, if_false,
      hdup, log_activity]
  · simp only [FileService.create_file, h1, h2, hacc, Bool.false_eq_true, if_false,
      hdup, log_activity]
    rw [List.map_append, map_if_id_of_fresh _ _ _ hFresh]
    simp
  · simp only [FileService.create_file, h1, h2, hacc, Bool.false_eq_true, if_false,
      hdup, log_activity]

/-- C3 witness: in `stOneFile` (which satisfies the invariant and id
discipline), creating a second personal `"a.md"` for user 2 is rejected with
the conflict message and the state is returned unchanged. -/
theorem C3_create_file_unique_witness :
    UniqueNames stOneFile ∧ FreshIds stOneFile ∧
    FileService.create_file stOneFile "a.md" "x" 2 none =
      ((false, "File with this name already exists", none), stOneFile) :=
  ⟨by decide, by decide,
   (C3_create_file_unique stOneFile "a.md" "x" 2 none (by decide) (by decide)
      (by decide)).1 (by decide) (fun t ht => Option.noConfusion ht) (by decide)⟩

/-- C10, confirmed: `create_file` checks duplicates and stores the record
under the sanitized name.  For two calls in the same scope whose distinct raw
names sanitize to the same string — given a clean starting state (no file
with that sanitized name in the scope), the usual auto-increment discipline,
and team membership when a team is supplied — the first call succeeds and
appends a row carrying the sanitized name, and the second call fails with
`File with this name already exists`, inserting nothing. -/
theorem C10_sanitized_uniqueness (s : St) (a b c1 c2 : String) (owner : Nat)
    (tid : Option Nat) (hFresh : FreshIds s) (hTid : tid ≠ some 0)
    (hsan : sanitize_filename (pyStrip a) = sanitize_filename (pyStrip b))
    (ha : pyStrip a ≠ "") (hb : pyStrip b ≠ "")
    (hmem : ∀ t, tid = some t →
      (s.members.any (fun m => some m.teamId == some t && m.userId == owner)) = true)
    (hnodup : ∀ f ∈ s.files, ¬(f.name = sanitize_filename (pyStrip a) ∧
      f.teamId = tid ∧ (tid = none → f.ownerId = owner))) :
    (FileService.create_file s a c1 owner tid).1.1 = true ∧
    (∃ row, (FileService.create_file s a c1 owner tid).2.files = s.files ++ [row] ∧
      row.name = sanitize_filename (pyStrip a) ∧ row.teamId = tid ∧
      row.ownerId = owner ∧ row.deletedAt = none) ∧
    FileService.create_file ( (FileService.create_file s a c1 owner tid).2 ) b c2
        owner tid =
      ((false, "File with this name already exists", none),
       (FileService.create_file s a c1 owner tid).2) := by
  have h1a : (pyStrip a == "") = false := beq_eq_false_iff_ne.mpr ha
  have h1b : (pyStrip b == "") = false := beq_eq_false_iff_ne.mpr hb
  have hacc : (truthy tid &&
      !(s.members.any (fun m => some m.teamId == tid && m.userId == owner))) = false := by
    rcases tid with _ | t
    · rfl
    · rw [hmem t rfl]
      simp
  have hdupa : (if truthy tid then
      s.files.any (fun f =>
        f.name == sanitize_filename (pyStrip a) && f.teamId == tid)
    else
      s.files.any (fun f =>
        f.name == sanitize_filename (pyStrip a) && f.ownerId == owner &&
        f.teamId == none)) = false := by
    rcases htid : tid with _ | t
    · subst htid
      simp only [truthy, Bool.false_eq_true, if_false]
      rw [List.any_eq_false]
      intro f hf hp
      simp only [Bool.and_eq_true, beq_iff_eq] at hp
      exact hnodup f hf ⟨hp.1.1, hp.2, fun _ => hp.1.2⟩
    · subst htid
      have ht0 : t ≠ 0 := fun h => hTid (by rw [h])
      simp only [truthy, ne_eq, ht0, not_false_iff, bne_iff_ne, if_true]
      rw [List.any_eq_false]
      intro f hf hp
      simp only [Bool.and_eq_true, beq_iff_eq] at hp
      exact hnodup f hf ⟨hp.1, hp.2, fun hc => Option.noConfusion hc⟩
  obtain ⟨hsucc, hfiles, hmembers⟩ :=
    create_file_success_state s a c1 owner tid hFresh h1a hacc hdupa
  refine ⟨hsucc, ⟨_, hfiles, rfl, rfl, rfl, rfl⟩, ?_⟩
  apply create_file_conflict _ b c2 owner tid h1b
  · rw [hmembers]
    exact hacc
  · rw [hfiles]
    rcases htid : tid with _ | t
    · subst htid
      simp only [truthy, Bool.false_eq_true, if_false]
      rw [List.any_append]
      have hrow : (List.any
          [({ id := s.nextFileId, name := sanitize_filename (pyStrip a),
              filePath := FileStorage.generate_file_path s.nextFileId
                (sanitize_filename (pyStrip a)),
              fileSize := (FileStorage.save_file s.fs
                (FileStorage.generate_file_path s.nextFileId
                  (sanitize_filename (pyStrip a))) c1).1.1,
              checksum := (FileStorage.save_file s.fs
                (FileStorage.generate_file_path s.nextFileId
                  (sanitize_filename (pyStrip a))) c1).1.2,
              mimeType := (guessMimeType (sanitize_filename (pyStrip a))).getD
                "text/plain",
              ownerId := owner, teamId := none, createdAt := s.now,
              updatedAt := s.now, deletedAt := none } : FileRow)]
          (fun f => f.name == sanitize_filename (pyStrip b) && f.ownerId == owner &&
            f.teamId == none)) = true := by
        simp [← hsan]
      rw [hrow]
      simp
    · subst htid
      have ht0 : t ≠ 0 := fun h => hTid (by rw [h])
      simp only [truthy, ne_eq, ht0, not_false_iff, bne_iff_ne, if_true]
      rw [List.any_append]
      have hrow : (List.any
          [({ id := s.nextFileId, name := sanitize_filename (pyStrip a),
              filePath := FileStorage.generate_file_path s.nextFileId
                (sanitize_filename (pyStrip a)),
              fileSize := (FileStorage.save_file s.fs
                (FileStorage.generate_file_path s.nextFileId
                  (sanitize_filename (pyStrip a))) c1).1.1,
              checksum := (FileStorage.save_file s.fs
                (FileStorage.generate_file_path s.nextFileId
                  (sanitize_filename (pyStrip a))) c1).1.2,
              mimeType := (guessMimeType (sanitize_filename (pyStrip a))).getD
                "text/plain",
              ownerId := owner, teamId := some t, createdAt := s.now,
              updatedAt := s.now, deletedAt := none } : FileRow)]
          (fun f => f.name == sanitize_filename (pyStrip b) && f.teamId == some t))
          = true := by
        simp [← hsan]
      rw [hrow]
      simp

/-- C10 witness: `"a (md)"` and `"a;.md"` both sanitize to `"a .md"` (the
first) and `"a.md"` — two raw names that sanitize to `"notes.md"`: here
`" notes.md "` and `"notes<>.md"` — so the second create is rejected. -/
theorem C10_sanitized_uniqueness_witness :
    sanitize_filename (pyStrip " notes.md ") = sanitize_filename (pyStrip "notes<>.md") ∧
    " notes.md " ≠ "notes<>.md" ∧
    (FileService.create_file stOneFile " notes.md " "x" 1 none).1.1 = true ∧
    FileService.create_file
        (FileService.create_file stOneFile " notes.md " "x" 1 none).2
        "notes<>.md" "y" 1 none =
      ((false, "File with this name already exists", none),
       (FileService.create_file stOneFile " notes.md " "x" 1 none).2) := by
  have h := C10_sanitized_uniqueness stOneFile " notes.md " "notes<>.md" "x" "y" 1
    none (by decide) (by decide) (by decide) (by decide) (by decide)
    (fun t ht => Option.noConfusion ht) (by decide)
  exact ⟨by decide, by decide, h.1, h.2.2⟩

/-- C8, code bug: `Database.execute_modify` returns an `int`, yet
`TeamService.create_team` reads `.lastrowid` off that `int`, raising
`AttributeError` after the team `INSERT` has already autocommitted.  The
`except` handler reports failure, the owner-membership `INSERT` is never
reached, and the orphaned team row remains — so for every fresh name the call
persists the team row and no membership row, contradicting both the claimed
all-or-nothing behaviour and the service's own success-path test. -/
theorem C8_create_team_not_atomic (s : St) (name desc : String) (owner : Nat)
    (hdup : (s.teams.find? (fun t => t.name == name)).isSome = false) :
    TeamService.create_team s name desc owner =
      ((false, "Failed to create team", none),
       { s with teams := s.teams ++ [⟨s.nextTeamId, name, desc, owner, s.now⟩],
                nextTeamId := s.nextTeamId + 1 }) ∧
    (TeamService.create_team s name desc owner).2.members = s.members := by
  constructor <;>
    simp [TeamService.create_team, hdup, TeamService.lastrowidAttrOfInt]

/-- C8 witness: creating team `"T2"` in `stOneFile` reports failure yet
leaves the inserted team row behind, with no membership row. -/
theorem C8_create_team_not_atomic_witness :
    ((stOneFile.teams.find? (fun t => t.name == "T2")).isSome = false) ∧
    (TeamService.create_team stOneFile "T2" "d" 1).1.1 = false ∧
    (TeamService.create_team stOneFile "T2" "d" 1).2.teams =
      [⟨1, "T2", "d", 1, 0⟩] ∧
    (TeamService.create_team stOneFile "T2" "d" 1).2.members = [] := by
  have h := C8_create_team_not_atomic stOneFile "T2" "d" 1 (by decide)
  refine ⟨by decide, ?_, ?_, ?_⟩
  · rw [h.1]
  · rw [h.1]
    decide
  · rw [h.1]
    decide

/-- C2, code bug: a content-changing update by the owner succeeds, but the
pre-update content is never preserved.  Through the `PATCH /files/<id>` route
the inserted `file_versions` row records only the old size and checksum and
keeps the empty `version_path` (the copy step calls the nonexistent
`FileStorage.generate_version_path`, and the `AttributeError` is swallowed),
so after the update the old bytes are gone — reading the file yields the new
content and the version row points nowhere.  `FileService.update_file`
contains no versioning step at all: it succeeds leaving `file_versions`
empty. -/
theorem C2_version_snapshot_broken :
    (WebFiles.update_file stC2 1 1 none (some "new")).1 =
      (200, "File updated successfully") ∧
    (WebFiles.update_file stC2 1 1 none (some "new")).2.versions =
      [⟨1, 1, "", (strUtf8 "old").length, sha256Hex (strUtf8 "old"), 5⟩] ∧
    FileStorage.read_file (WebFiles.update_file stC2 1 1 none (some "new")).2.fs
      pathC2 = some "new" ∧
    FileStorage.read_file (WebFiles.update_file stC2 1 1 none (some "new")).2.fs
      "" = none ∧
    (FileService.update_file stC2 1 1 none (some "new")).1.1 = true ∧
    (FileService.update_file stC2 1 1 none (some "new")).2.versions = [] := by
  refine ⟨by decide, by decide, by decide, by decide, by decide, by decide⟩
